import Mathlib

/-!
Shallow embedding of the notion-page-retriever program (src/main.go).

The program fetches a Notion page's block tree through the paginated
"list children" API, renders it as indented text, flattens the text for
summarization, and calls a summarizer.  Remote calls are modelled by an
oracle `Client` indexed by a global call counter (so both deterministic
servers and arbitrary response sequences can be expressed); the global
mutable map `blockChildren` is modelled by explicit state passing; the
standard-output stream is modelled as an accumulated `String`; the
unbounded recursion is made total with a fuel parameter (running out of
fuel yields an error, and every theorem supplies enough fuel).

Strings are modelled by Lean `String` over characters; the Go code
indexes identifier strings by byte, which coincides with the character
view on the ASCII identifiers the program is built for.
-/

/-- One rich-text run; only the plain text is ever read by the program. -/
structure RichText where
  plainText : String
deriving Repr, DecidableEq

/-- Icon of a callout block: a type tag and (when the type is "emoji") the emoji. -/
structure Icon where
  type : String
  emoji : String
deriving Repr, DecidableEq

/-- Kind-specific payload of a block, one constructor per case that the
program's type switches distinguish, plus `unknown` for every other kind. -/
inductive BlockData where
  | paragraph (richText : List RichText)
  | heading1 (richText : List RichText)
  | heading2 (richText : List RichText)
  | heading3 (richText : List RichText)
  | bulletedListItem (richText : List RichText)
  | numberedListItem (richText : List RichText)
  | toDo (richText : List RichText) (checked : Bool)
  | image (type : String) (externalURL : String) (fileURL : String)
  | code (richText : List RichText) (language : String)
  | quote (richText : List RichText)
  | callout (richText : List RichText) (icon : Option Icon)
  | divider
  | toggle (richText : List RichText)
  | table
  | tableRow (cells : List (List RichText))
  | columnList
  | column
  | unknown
deriving Repr, DecidableEq

/-- A content block as returned by the API: identifier, has-children flag
(`GetHasChildren`), and the kind-specific payload. -/
structure Block where
  id : String
  hasChildren : Bool
  data : BlockData
deriving Repr, DecidableEq

/-- Model of Go `strings.Repeat`. -/
def strRepeat (s : String) : Nat → String
  | 0 => ""
  | n + 1 => s ++ strRepeat s n

/-- Model of Go `strings.Split` with a one-character separator: splits a
character list at every occurrence of `c`; the result is never empty. -/
def splitOnChar (c : Char) : List Char → List (List Char)
  | [] => [[]]
  | a :: rest =>
    if a = c then [] :: splitOnChar c rest
    else
      match splitOnChar c rest with
      | [] => [[a]]
      | l :: ls => (a :: l) :: ls

/-- getIndent from main.go: two spaces per depth level (defined but unused
by the printing path, which uses four spaces inline). -/
def getIndent (depth : Nat) : String :=
  strRepeat "  " depth

/-- formatPageID from main.go: an input containing a hyphen is returned
unchanged; an unhyphenated 32-character input is hyphenated 8-4-4-4-12;
anything else is returned unchanged. -/
def formatPageID (id : String) : String :=
  if '-' ∈ id.toList then id
  else if id.toList.length = 32 then
    ((id.toList.take 8) ++ '-' ::
      ((id.toList.drop 8).take 4) ++ '-' ::
      ((id.toList.drop 12).take 4) ++ '-' ::
      ((id.toList.drop 16).take 4) ++ '-' ::
      (id.toList.drop 20)).asString
  else id

/-- getRichTextContent from main.go: concatenation of the runs' plain text. -/
def getRichTextContent (richText : List RichText) : String :=
  String.join (richText.map (fun t => t.plainText))

/-- The quote case's loop body in printBlock: one `> `-prefixed output line
per line of the quote's text. -/
def renderQuoteLines (indent : String) : List (List Char) → String
  | [] => ""
  | l :: ls => indent ++ "> " ++ l.asString ++ "\n" ++ renderQuoteLines indent ls

/-- printBlock from main.go: the text fragment a single block writes to
standard output when rendered at the given depth (the empty string for the
kinds whose cases print nothing and for kinds outside the switch). -/
def printBlock (block : Block) (depth : Nat) : String :=
  let indent := strRepeat "    " depth
  match block.data with
  | BlockData.paragraph rt => indent ++ getRichTextContent rt ++ "\n\n"
  | BlockData.heading1 rt => indent ++ "# " ++ getRichTextContent rt ++ "\n\n"
  | BlockData.heading2 rt => indent ++ "## " ++ getRichTextContent rt ++ "\n\n"
  | BlockData.heading3 rt => indent ++ "### " ++ getRichTextContent rt ++ "\n\n"
  | BlockData.bulletedListItem rt => indent ++ "- " ++ getRichTextContent rt ++ "\n"
  | BlockData.numberedListItem rt => indent ++ "1. " ++ getRichTextContent rt ++ "\n"
  | BlockData.toDo rt checked =>
    indent ++ "- " ++ (if checked then "[x]" else "[ ]") ++ " " ++ getRichTextContent rt ++ "\n"
  | BlockData.image type externalURL fileURL =>
    if type = "external" then indent ++ "![Image](" ++ externalURL ++ ")\n\n"
    else if type = "file" then indent ++ "![Image](" ++ fileURL ++ ")\n\n"
    else ""
  | BlockData.code rt language =>
    indent ++ "```" ++ language ++ "\n" ++
      indent ++ getRichTextContent rt ++ "\n" ++
      indent ++ "```\n\n"
  | BlockData.quote rt =>
    renderQuoteLines indent (splitOnChar '\n' (getRichTextContent rt).toList) ++ "\n"
  | BlockData.callout rt icon =>
    let ic :=
      match icon with
      | some i => if i.type = "emoji" then i.emoji else "💡"
      | none => "💡"
    indent ++ "> " ++ ic ++ " " ++ getRichTextContent rt ++ "\n\n"
  | BlockData.divider => indent ++ "---\n\n"
  | BlockData.toggle rt => indent ++ "- " ++ getRichTextContent rt ++ "\n"
  | BlockData.table => ""
  | BlockData.tableRow cells =>
    indent ++ "| " ++ String.intercalate " | " (cells.map getRichTextContent) ++ " |\n"
  | BlockData.columnList => ""
  | BlockData.column => ""
  | BlockData.unknown => ""

/-- The text collectContent's type switch writes for one block (before the
unconditional blank-line separator): the plain text for the ten text-bearing
kinds, nothing for every other kind. -/
def collectBlockText (block : Block) : String :=
  match block.data with
  | BlockData.paragraph rt => getRichTextContent rt
  | BlockData.heading1 rt => getRichTextContent rt
  | BlockData.heading2 rt => getRichTextContent rt
  | BlockData.heading3 rt => getRichTextContent rt
  | BlockData.bulletedListItem rt => getRichTextContent rt
  | BlockData.numberedListItem rt => getRichTextContent rt
  | BlockData.toDo rt _ => getRichTextContent rt
  | BlockData.quote rt => getRichTextContent rt
  | BlockData.callout rt _ => getRichTextContent rt
  | BlockData.toggle rt => getRichTextContent rt
  | _ => ""

/-- One response of the remote "list children" operation. -/
structure ChildrenResponse where
  results : List Block
  hasMore : Bool
  nextCursor : String

/-- The remote document API, as an oracle: given the index of the call in
the whole run (so that arbitrary response sequences, not only functions of
the request, are expressible), a block id and a cursor, answer with a page
of children or a transport error. -/
abbrev Client := Nat → String → String → Except String ChildrenResponse

/-- A fetch error together with the number of remote calls performed up to
and including the failing one (ghost instrumentation for the theorems). -/
abbrev FetchError := String × Nat

/-- A client whose responses depend only on the request, never on the call
index: a deterministic server. -/
def constClient (serve : String → String → Except String ChildrenResponse) : Client :=
  fun _ blockID cursor => serve blockID cursor

/-- The pagination loop of fetchChildBlocks: repeatedly call the API from
the empty cursor, page size 100 (the page size does not appear in the model
since the oracle serves whole pages), accumulate the results in response
order, stop when the server reports no more pages.  Returns the blocks and
the updated call counter. -/
def getChildrenAll (client : Client) : Nat → String → String → List Block → Nat →
    Except FetchError (List Block × Nat)
  | 0, _, _, _, n => Except.error ("out of fuel", n)
  | fuel + 1, blockID, cursor, acc, n =>
    match client n blockID cursor with
    | Except.error e => Except.error ("failed to get blocks: " ++ e, n + 1)
    | Except.ok resp =>
      if resp.hasMore then
        getChildrenAll client fuel blockID resp.nextCursor (acc ++ resp.results) (n + 1)
      else
        Except.ok (acc ++ resp.results, n + 1)

/-- The global map blockChildren, modelled as an association list where a
new binding is prepended (so lookup sees the newest binding, matching Go
map assignment). -/
abbrev BlockMap := List (String × List Block)

/-- Lookup in the blockChildren map. -/
def mapFind (m : BlockMap) (k : String) : Option (List Block) :=
  (m.find? (fun p => p.1 = k)).map (fun p => p.2)

/-- Assignment `blockChildren[k] = v`. -/
def mapInsert (m : BlockMap) (k : String) (v : List Block) : BlockMap :=
  (k, v) :: m

/-- The per-block recursive expansion loop at the end of fetchChildBlocks,
with the recursive call inlined: for a block with the has-children flag,
fetch all pages of its children, expand those children in turn, then store
the binding for the block's id (matching the order of operations in the Go
code, where the store happens after the recursive call returns).  The fuel
decreases at every step so that the function is structurally recursive and
computable by reduction; every theorem supplies enough fuel. -/
def fetchDescendants (client : Client) : Nat → List Block → BlockMap → Nat →
    Except FetchError (BlockMap × Nat)
  | _, [], m, n => Except.ok (m, n)
  | 0, _ :: _, _, n => Except.error ("out of fuel", n)
  | fuel + 1, b :: bs, m, n =>
    if b.hasChildren then
      match getChildrenAll client (fuel + 1) b.id "" [] n with
      | Except.error e => Except.error e
      | Except.ok (childBlocks, n₁) =>
        match fetchDescendants client fuel childBlocks m n₁ with
        | Except.error e => Except.error e
        | Except.ok (m₁, n₂) =>
          fetchDescendants client fuel bs (mapInsert m₁ b.id childBlocks) n₂
    else
      fetchDescendants client fuel bs m n

/-- fetchChildBlocks from main.go: fetch all pages of the node's children,
then recursively fetch the children of every returned block whose
has-children flag is set (fetchDescendants), storing each such expansion in
the map keyed by that block's id.  Returns the direct children, the updated
map and the updated call counter. -/
def fetchChildBlocks (client : Client) : Nat → String → BlockMap → Nat →
    Except FetchError (List Block × BlockMap × Nat)
  | 0, _, _, n => Except.error ("out of fuel", n)
  | fuel + 1, blockID, m, n =>
    match getChildrenAll client (fuel + 1) blockID "" [] n with
    | Except.error e => Except.error e
    | Except.ok (blocks, n₁) =>
      match fetchDescendants client fuel blocks m n₁ with
      | Except.error e => Except.error e
      | Except.ok (m₁, n₂) => Except.ok (blocks, m₁, n₂)

/-- The per-block loop of printBlocksRecursive, with the recursive call
inlined: print the block, and when its id has an entry in the map re-fetch
its subtree (fetchChildBlocks) and print its children at depth + 1, exactly
as printBlocksRecursive does. -/
def printBlocksLoop (client : Client) : Nat → List Block → Nat → BlockMap → Nat →
    String × Except FetchError (BlockMap × Nat)
  | _, [], _, m, n => ("", Except.ok (m, n))
  | 0, _ :: _, _, _, n => ("", Except.error ("out of fuel", n))
  | fuel + 1, b :: bs, depth, m, n =>
    let out := printBlock b depth
    match mapFind m b.id with
    | some _ =>
      match fetchChildBlocks client (fuel + 1) b.id m n with
      | Except.error e => (out, Except.error e)
      | Except.ok (blocks, m₁, n₁) =>
        match printBlocksLoop client fuel blocks (depth + 1) m₁ n₁ with
        | (o, Except.error e) => (out ++ o, Except.error e)
        | (o, Except.ok (m₂, n₂)) =>
          match printBlocksLoop client fuel bs depth m₂ n₂ with
          | (o₂, r) => (out ++ o ++ o₂, r)
    | none =>
      match printBlocksLoop client fuel bs depth m n with
      | (o₂, r) => (out ++ o₂, r)

/-- printBlocksRecursive from main.go: re-fetch the node's children (and,
through fetchChildBlocks, its whole subtree), then print each child and
recurse into it when its id has an entry in the map.  Returns the text
written to standard output together with the outcome. -/
def printBlocksRecursive (client : Client) : Nat → String → Nat → BlockMap → Nat →
    String × Except FetchError (BlockMap × Nat)
  | 0, _, _, _, n => ("", Except.error ("out of fuel", n))
  | fuel + 1, blockID, depth, m, n =>
    match fetchChildBlocks client (fuel + 1) blockID m n with
    | Except.error e => ("", Except.error e)
    | Except.ok (blocks, m₁, n₁) => printBlocksLoop client fuel blocks depth m₁ n₁

/-- The per-block loop of collectContent, with the recursive call inlined:
append the text the block's kind contributes followed by the unconditional
blank-line separator, and when the block's id has an entry in the map
re-fetch its subtree and collect its children, exactly as collectContent
does. -/
def collectLoop (client : Client) : Nat → List Block → BlockMap → Nat →
    String × Except FetchError (BlockMap × Nat)
  | _, [], m, n => ("", Except.ok (m, n))
  | 0, _ :: _, _, n => ("", Except.error ("out of fuel", n))
  | fuel + 1, b :: bs, m, n =>
    let out := collectBlockText b ++ "\n\n"
    match mapFind m b.id with
    | some _ =>
      match fetchChildBlocks client (fuel + 1) b.id m n with
      | Except.error e => (out, Except.error e)
      | Except.ok (blocks, m₁, n₁) =>
        match collectLoop client fuel blocks m₁ n₁ with
        | (o, Except.error e) => (out ++ o, Except.error e)
        | (o, Except.ok (m₂, n₂)) =>
          match collectLoop client fuel bs m₂ n₂ with
          | (o₂, r) => (out ++ o ++ o₂, r)
    | none =>
      match collectLoop client fuel bs m n with
      | (o₂, r) => (out ++ o₂, r)

/-- collectContent from main.go: re-fetch the node's children, then for
each child append the text its kind contributes followed by the
unconditional blank-line separator, and recurse into it when its id has an
entry in the map. -/
def collectContent (client : Client) : Nat → String → BlockMap → Nat →
    String × Except FetchError (BlockMap × Nat)
  | 0, _, _, n => ("", Except.error ("out of fuel", n))
  | fuel + 1, blockID, m, n =>
    match fetchChildBlocks client (fuel + 1) blockID m n with
    | Except.error e => ("", Except.error e)
    | Except.ok (blocks, m₁, n₁) => collectLoop client fuel blocks m₁ n₁

/-- Ghost observer mirroring the recursion of fetchDescendants while
recording, instead of the map, the identifiers of the fetched blocks whose
has-children flag was true at fetch time; it drives the client through the
same call sequence (used only to state which ids the fetch phase stored). -/
def fetchedIdsDescendants (client : Client) : Nat → List Block → Nat →
    Except FetchError (List String × Nat)
  | _, [], n => Except.ok ([], n)
  | 0, _ :: _, n => Except.error ("out of fuel", n)
  | fuel + 1, b :: bs, n =>
    if b.hasChildren then
      match getChildrenAll client (fuel + 1) b.id "" [] n with
      | Except.error e => Except.error e
      | Except.ok (childBlocks, n₁) =>
        match fetchedIdsDescendants client fuel childBlocks n₁ with
        | Except.error e => Except.error e
        | Except.ok (ids, n₂) =>
          match fetchedIdsDescendants client fuel bs n₂ with
          | Except.error e => Except.error e
          | Except.ok (ids₂, n₃) => Except.ok (ids ++ b.id :: ids₂, n₃)
    else
      fetchedIdsDescendants client fuel bs n

/-- Ghost observer mirroring fetchChildBlocks (see fetchedIdsDescendants). -/
def fetchedChildIds (client : Client) : Nat → String → Nat →
    Except FetchError (List String × Nat)
  | 0, _, n => Except.error ("out of fuel", n)
  | fuel + 1, blockID, n =>
    match getChildrenAll client (fuel + 1) blockID "" [] n with
    | Except.error e => Except.error e
    | Except.ok (blocks, n₁) => fetchedIdsDescendants client fuel blocks n₁

/-- summarizeContent from main.go: a missing OPENAI_API_KEY (the empty
string, Go's value for an unset variable) is reported as an error without
calling the summarizer; otherwise the summarizer oracle is called and a
failure is wrapped with context.  The Bool records whether the oracle was
called (ghost instrumentation). -/
def summarizeContent (openaiKey : String) (oracle : String → Except String String)
    (content : String) : Except String String × Bool :=
  if openaiKey = "" then (Except.error "OPENAI_API_KEY is not set", false)
  else
    match oracle content with
    | Except.error e => (Except.error ("summarization failed: " ++ e), true)
    | Except.ok r => (Except.ok r, true)

/-- Process environment and argument vector (os.Args, program name
included); Go's os.Getenv yields the empty string for an unset variable. -/
structure Env where
  args : List String
  notionToken : String
  openaiKey : String

/-- How the modelled run ends: usage error (argument count not 2), fatal
missing NOTION_API_TOKEN, fatal fetch error while printing or while
collecting, or completion (with the summarization error, if any, that was
logged without aborting the run). -/
inductive RunOutcome where
  | usage
  | fatalToken
  | fatalFetch (e : String)
  | fatalCollect (e : String)
  | done (summaryErr : Option String)
deriving Repr, DecidableEq

/-- Observable result of a run: the text written to standard output, the
outcome, the number of document-API calls performed, and whether the
summarizer oracle was called. -/
structure RunResult where
  stdout : String
  outcome : RunOutcome
  notionCalls : Nat
  summarizerCalled : Bool
deriving Repr, DecidableEq

/-- main from main.go: argument-count check, NOTION_API_TOKEN check,
page-id normalization, structural printing, text collection, then
summarization whose failure is logged (to standard error) without aborting. -/
def runMain (env : Env) (client : Client) (oracle : String → Except String String)
    (fuel : Nat) : RunResult :=
  if env.args.length ≠ 2 then
    { stdout := "Usage: go run main.go <page-id>\n", outcome := RunOutcome.usage,
      notionCalls := 0, summarizerCalled := false }
  else if env.notionToken = "" then
    { stdout := "", outcome := RunOutcome.fatalToken, notionCalls := 0,
      summarizerCalled := false }
  else
    let pageID := formatPageID (env.args.getD 1 "")
    match printBlocksRecursive client fuel pageID 0 [] 0 with
    | (out, Except.error (e, n)) =>
      { stdout := out, outcome := RunOutcome.fatalFetch e, notionCalls := n,
        summarizerCalled := false }
    | (out, Except.ok (m, n)) =>
      match collectContent client fuel pageID m n with
      | (_, Except.error (e, n₁)) =>
        { stdout := out, outcome := RunOutcome.fatalCollect e, notionCalls := n₁,
          summarizerCalled := false }
      | (content, Except.ok (_, n₁)) =>
        let header := "\n=== AI による要約 ===\n\n"
        match summarizeContent env.openaiKey oracle content with
        | (Except.error e, called) =>
          { stdout := out ++ header, outcome := RunOutcome.done (some e),
            notionCalls := n₁, summarizerCalled := called }
        | (Except.ok summary, called) =>
          { stdout := out ++ header ++ summary ++ "\n", outcome := RunOutcome.done none,
            notionCalls := n₁, summarizerCalled := called }

/-- Concatenated contribution of a list of visited blocks to the flattened
text: each block contributes the text its kind carries (empty for kinds
without a text payload) followed by the unconditional blank-line separator. -/
def catContributions : List Block → String
  | [] => ""
  | b :: bs => collectBlockText b ++ "\n\n" ++ catContributions bs

/-- Ghost observer mirroring the loop of collectContent while recording,
instead of the text, the blocks it visits in order: each block of the list
is visited, and when its id has an entry in the map its re-fetched children
are visited right after it (depth-first), before its later siblings.  It
drives the client, the map and the call counter through exactly the same
sequence as collectLoop (used only to state what the extraction visits). -/
def collectVisitedLoop (client : Client) : Nat → List Block → BlockMap → Nat →
    List Block × Except FetchError (BlockMap × Nat)
  | _, [], m, n => ([], Except.ok (m, n))
  | 0, _ :: _, _, n => ([], Except.error ("out of fuel", n))
  | fuel + 1, b :: bs, m, n =>
    match mapFind m b.id with
    | some _ =>
      match fetchChildBlocks client (fuel + 1) b.id m n with
      | Except.error e => ([b], Except.error e)
      | Except.ok (blocks, m₁, n₁) =>
        match collectVisitedLoop client fuel blocks m₁ n₁ with
        | (v, Except.error e) => (b :: v, Except.error e)
        | (v, Except.ok (m₂, n₂)) =>
          match collectVisitedLoop client fuel bs m₂ n₂ with
          | (v₂, r) => (b :: v ++ v₂, r)
    | none =>
      match collectVisitedLoop client fuel bs m n with
      | (v₂, r) => (b :: v₂, r)

/-- Ghost observer mirroring collectContent (see collectVisitedLoop). -/
def collectVisited (client : Client) : Nat → String → BlockMap → Nat →
    List Block × Except FetchError (BlockMap × Nat)
  | 0, _, _, n => ([], Except.error ("out of fuel", n))
  | fuel + 1, blockID, m, n =>
    match fetchChildBlocks client (fuel + 1) blockID m n with
    | Except.error e => ([], Except.error e)
    | Except.ok (blocks, m₁, n₁) => collectVisitedLoop client fuel blocks m₁ n₁

/-- A client that reports every request as failing with the requested block
id as the message, so that theorems can observe which id a phase asked for. -/
def idEchoClient : Client :=
  fun _ blockID _ => Except.error blockID

/-- A summarizer oracle that always succeeds. -/
def okOracle : String → Except String String :=
  fun _ => Except.ok "summary"

/-- Leaf paragraph block reading "C". -/
def blkC : Block := ⟨"c", false, BlockData.paragraph [⟨"C"⟩]⟩

/-- Paragraph block "B" that has children. -/
def blkB : Block := ⟨"b", true, BlockData.paragraph [⟨"B"⟩]⟩

/-- Leaf divider block. -/
def blkD : Block := ⟨"d", false, BlockData.divider⟩

/-- Paragraph block "C" that has children (used in the three-level tree). -/
def blkC2 : Block := ⟨"c", true, BlockData.paragraph [⟨"C"⟩]⟩

/-- Leaf paragraph block "D". -/
def blkDD : Block := ⟨"d", false, BlockData.paragraph [⟨"D"⟩]⟩

/-- Deterministic server of the two-level tree r -> b -> c. -/
def serve3 : String → String → Except String ChildrenResponse
  | "r", _ => Except.ok ⟨[blkB], false, ""⟩
  | "b", _ => Except.ok ⟨[blkC], false, ""⟩
  | _, _ => Except.error "no such block"

/-- Client of the two-level tree r -> b -> c. -/
def client3 : Client := constClient serve3

/-- Deterministic server of the three-level tree r -> b -> c -> d. -/
def serve4 : String → String → Except String ChildrenResponse
  | "r", _ => Except.ok ⟨[blkB], false, ""⟩
  | "b", _ => Except.ok ⟨[blkC2], false, ""⟩
  | "c", _ => Except.ok ⟨[blkDD], false, ""⟩
  | _, _ => Except.error "no such block"

/-- Client of the three-level tree r -> b -> c -> d. -/
def client4 : Client := constClient serve4

/-- Deterministic server of a tree whose root has a single divider child. -/
def serveD : String → String → Except String ChildrenResponse
  | "r", _ => Except.ok ⟨[blkD], false, ""⟩
  | _, _ => Except.error "no such block"

/-- Client of the divider-only tree. -/
def clientD : Client := constClient serveD

/-- A response sequence that serves the two-level tree r -> b -> c for the
first two calls and fails afterwards: the initial recursive fetch succeeds,
the re-fetch performed while rendering fails. -/
def cex2Client : Client := fun k blockID _ =>
  if k ≤ 1 then
    match blockID with
    | "r" => Except.ok ⟨[blkB], false, ""⟩
    | "b" => Except.ok ⟨[blkC], false, ""⟩
    | _ => Except.error "no such block"
  else Except.error "boom"

/-- Leaf block used to populate the 100/100/50 pagination pages. -/
def leafBlk : Block := ⟨"x", false, BlockData.paragraph []⟩

/-- Client serving the root's children in three pages of 100, 100 and 50
blocks, linked by cursors "c1" and "c2". -/
def cw6Client : Client := fun _ _ cursor =>
  if cursor = "" then Except.ok ⟨List.replicate 100 leafBlk, true, "c1"⟩
  else if cursor = "c1" then Except.ok ⟨List.replicate 100 leafBlk, true, "c2"⟩
  else if cursor = "c2" then Except.ok ⟨List.replicate 50 leafBlk, false, ""⟩
  else Except.error "bad cursor"

/-- Paragraph block "hi" used by the indentation counterexample. -/
def pbHi : Block := ⟨"p", false, BlockData.paragraph [⟨"hi"⟩]⟩

/-- Numbered-list item with text "first". -/
def numBlk1 : Block := ⟨"n1", false, BlockData.numberedListItem [⟨"first"⟩]⟩

/-- Numbered-list item with text "second". -/
def numBlk2 : Block := ⟨"n2", false, BlockData.numberedListItem [⟨"second"⟩]⟩

/-- The four-space indent repeated d times is 4·d space characters. -/
theorem strRepeat_four_toList (d : Nat) :
    (strRepeat "    " d).toList = List.replicate (4 * d) ' ' := by
  induction d with
  | zero => rfl
  | succ d ih =>
    have h : (strRepeat "    " (d + 1)).toList =
        "    ".toList ++ (strRepeat "    " d).toList := rfl
    rw [h, ih]
    have h4 : "    ".toList = List.replicate 4 ' ' := rfl
    rw [h4, ← List.replicate_add]
    have he : 4 + 4 * d = 4 * (d + 1) := by ring
    rw [he]

/-- A string whose characters start with 4·d spaces has those spaces as its
prefix of length 4·d. -/
theorem take_indent_aux (d : Nat) {s : String} {rest : List Char}
    (hs : s.toList = List.replicate (4 * d) ' ' ++ rest) :
    s.toList.take (4 * d) = List.replicate (4 * d) ' ' := by
  rw [hs]
  have h := List.take_left (List.replicate (4 * d) ' ') rest
  rwa [List.length_replicate] at h

/-- A string of the form indent ++ x starts with the 4·d-space prefix. -/
theorem take_indent_of_eq {d : Nat} {s : String} (x : String)
    (hs : s = strRepeat "    " d ++ x) :
    s.toList.take (4 * d) = List.replicate (4 * d) ' ' := by
  subst hs
  have hx : (strRepeat "    " d ++ x).toList = List.replicate (4 * d) ' ' ++ x.toList := by
    show (strRepeat "    " d).toList ++ x.toList = _
    rw [strRepeat_four_toList]
  exact take_indent_aux d hx

/-- Splitting a character list never yields the empty list of lines. -/
theorem splitOnChar_ne_nil (c : Char) (l : List Char) : ¬ splitOnChar c l = [] := by
  cases l with
  | nil => simp [splitOnChar]
  | cons a rest =>
    simp only [splitOnChar]
    split
    · simp
    · split
      · simp
      · simp

/-- C8 (amended): every block kind that emits structural output emits a
fragment that begins with the 4·d-space indent of its depth. -/
theorem printBlock_starts_with_indent (b : Block) (d : Nat)
    (h : ¬ printBlock b d = "") :
    (printBlock b d).toList.take (4 * d) = List.replicate (4 * d) ' ' := by
  obtain ⟨i, hc, data⟩ := b
  cases data with
  | paragraph rt =>
    exact take_indent_of_eq (getRichTextContent rt ++ "\n\n")
      (by simp [printBlock, String.append_assoc])
  | heading1 rt =>
    exact take_indent_of_eq ("# " ++ (getRichTextContent rt ++ "\n\n"))
      (by simp [printBlock, String.append_assoc])
  | heading2 rt =>
    exact take_indent_of_eq ("## " ++ (getRichTextContent rt ++ "\n\n"))
      (by simp [printBlock, String.append_assoc])
  | heading3 rt =>
    exact take_indent_of_eq ("### " ++ (getRichTextContent rt ++ "\n\n"))
      (by simp [printBlock, String.append_assoc])
  | bulletedListItem rt =>
    exact take_indent_of_eq ("- " ++ (getRichTextContent rt ++ "\n"))
      (by simp [printBlock, String.append_assoc])
  | numberedListItem rt =>
    exact take_indent_of_eq ("1. " ++ (getRichTextContent rt ++ "\n"))
      (by simp [printBlock, String.append_assoc])
  | toDo rt checked =>
    cases checked with
    | false =>
      exact take_indent_of_eq ("- [ ] " ++ (getRichTextContent rt ++ "\n"))
        (by simp [printBlock, String.append_assoc])
    | true =>
      exact take_indent_of_eq ("- [x] " ++ (getRichTextContent rt ++ "\n"))
        (by simp [printBlock, String.append_assoc])
  | image type externalURL fileURL =>
    by_cases ht : type = "external"
    · exact take_indent_of_eq ("![Image](" ++ (externalURL ++ ")\n\n"))
        (by simp [printBlock, ht, String.append_assoc])
    · by_cases hf : type = "file"
      · exact take_indent_of_eq ("![Image](" ++ (fileURL ++ ")\n\n"))
          (by simp [printBlock, ht, hf, String.append_assoc])
      · exact absurd (by simp [printBlock, ht, hf]) h
  | code rt language =>
    exact take_indent_of_eq ("```" ++ (language ++ ("\n" ++ (strRepeat "    " d ++
        (getRichTextContent rt ++ ("\n" ++ (strRepeat "    " d ++ "```\n\n")))))))
      (by simp [printBlock, String.append_assoc])
  | quote rt =>
    cases hsp : splitOnChar '\n' (getRichTextContent rt).toList with
    | nil => exact absurd hsp (splitOnChar_ne_nil _ _)
    | cons l0 ls =>
      have hsp' : splitOnChar '\n' (getRichTextContent rt).data = l0 :: ls := hsp
      exact take_indent_of_eq ("> " ++ (l0.asString ++ ("\n" ++
          (renderQuoteLines (strRepeat "    " d) ls ++ "\n"))))
        (by simp [printBlock, hsp', renderQuoteLines, String.append_assoc])
  | callout rt icon =>
    cases icon with
    | none =>
      exact take_indent_of_eq ("> 💡 " ++ (getRichTextContent rt ++ "\n\n"))
        (by simp [printBlock, String.append_assoc])
    | some ic =>
      by_cases he : ic.type = "emoji"
      · exact take_indent_of_eq ("> " ++ (ic.emoji ++ (" " ++ (getRichTextContent rt ++ "\n\n"))))
          (by simp [printBlock, he, String.append_assoc])
      · exact take_indent_of_eq ("> 💡 " ++ (getRichTextContent rt ++ "\n\n"))
          (by simp [printBlock, he, String.append_assoc])
  | divider =>
    exact take_indent_of_eq ("---\n\n") (by simp [printBlock])
  | toggle rt =>
    exact take_indent_of_eq ("- " ++ (getRichTextContent rt ++ "\n"))
      (by simp [printBlock, String.append_assoc])
  | table => exact absurd rfl h
  | tableRow cells =>
    exact take_indent_of_eq ("| " ++ (String.intercalate " | " (cells.map getRichTextContent) ++ " |\n"))
      (by simp [printBlock, String.append_assoc])
  | columnList => exact absurd rfl h
  | column => exact absurd rfl h
  | unknown => exact absurd rfl h

/-- Branch of formatPageID for inputs that already contain a hyphen. -/
theorem formatPageID_of_hyphen {s : String} (h : '-' ∈ s.toList) :
    formatPageID s = s := by
  unfold formatPageID
  rw [if_pos h]

/-- Branch of formatPageID for unhyphenated 32-character inputs. -/
theorem formatPageID_of_len32 {s : String} (h : ¬ '-' ∈ s.toList)
    (h32 : s.toList.length = 32) :
    formatPageID s =
      ((s.toList.take 8) ++ '-' ::
        ((s.toList.drop 8).take 4) ++ '-' ::
        ((s.toList.drop 12).take 4) ++ '-' ::
        ((s.toList.drop 16).take 4) ++ '-' ::
        (s.toList.drop 20)).asString := by
  unfold formatPageID
  rw [if_neg h, if_pos h32]

/-- Branch of formatPageID for every other input. -/
theorem formatPageID_of_other {s : String} (h : ¬ '-' ∈ s.toList)
    (h32 : ¬ s.toList.length = 32) :
    formatPageID s = s := by
  unfold formatPageID
  rw [if_neg h, if_neg h32]

/-- C10: page-id normalization is idempotent. -/
theorem formatPageID_idempotent (s : String) :
    formatPageID (formatPageID s) = formatPageID s := by
  by_cases h : '-' ∈ s.toList
  · rw [formatPageID_of_hyphen h, formatPageID_of_hyphen h]
  · by_cases h32 : s.toList.length = 32
    · have hb := formatPageID_of_len32 h h32
      have hmem : '-' ∈ (formatPageID s).toList := by
        rw [hb, List.toList_asString]
        simp
      rw [formatPageID_of_hyphen hmem]
    · rw [formatPageID_of_other h h32, formatPageID_of_other h h32]

/-- C7: inputs with a hyphen pass through unchanged; unhyphenated
32-character inputs are hyphenated 8-4-4-4-12 (the result has length 36
and removing its hyphens recovers the input); other inputs pass through
unchanged; and the identifier handed to the document API by the run is
exactly the normalized one. -/
theorem formatPageID_normalization :
    (∀ s : String, '-' ∈ s.toList → formatPageID s = s) ∧
    (∀ s : String, ¬ '-' ∈ s.toList → s.toList.length = 32 →
      (formatPageID s).toList =
        s.toList.take 8 ++ '-' ::
          ((s.toList.drop 8).take 4 ++ '-' ::
            ((s.toList.drop 12).take 4 ++ '-' ::
              ((s.toList.drop 16).take 4 ++ '-' :: s.toList.drop 20))) ∧
      (formatPageID s).toList.length = 36 ∧
      (formatPageID s).toList.filter (fun c => ¬ c = '-') = s.toList) ∧
    (∀ s : String, ¬ '-' ∈ s.toList → ¬ s.toList.length = 32 → formatPageID s = s) ∧
    (∀ (p s token key : String) (oracle : String → Except String String) (fuel : Nat),
      ¬ token = "" →
      runMain ⟨[p, s], token, key⟩ idEchoClient oracle (fuel + 1) =
        ⟨"", RunOutcome.fatalFetch ("failed to get blocks: " ++ formatPageID s), 1, false⟩) := by
  refine ⟨fun s h => formatPageID_of_hyphen h, ?_, fun s h h32 => formatPageID_of_other h h32, ?_⟩
  · intro s h h32
    have hb : (formatPageID s).toList =
        s.toList.take 8 ++ '-' ::
          ((s.toList.drop 8).take 4 ++ '-' ::
            ((s.toList.drop 12).take 4 ++ '-' ::
              ((s.toList.drop 16).take 4 ++ '-' :: s.toList.drop 20))) := by
      rw [formatPageID_of_len32 h h32, List.toList_asString]
      simp [List.append_assoc, List.cons_append]
    refine ⟨hb, ?_, ?_⟩
    · rw [hb]
      have hlen : s.length = 32 := h32
      simp [List.length_take, List.length_drop, hlen]
    · rw [hb]
      have hseg : ∀ seg : List Char, seg ⊆ s.data →
          seg.filter (fun c => !decide (c = '-')) = seg := by
        intro seg hsub
        apply List.filter_eq_self.mpr
        intro a ha
        have hms : a ∈ s.toList := hsub ha
        have hne : ¬ a = '-' := fun hEq => h (hEq ▸ hms)
        simp [hne]
      have hf1 := hseg (s.data.take 8) (List.take_subset 8 s.data)
      have hf2 := hseg ((s.data.drop 8).take 4)
        (fun _ ha => List.drop_subset 8 s.data (List.take_subset 4 _ ha))
      have hf3 := hseg ((s.data.drop 12).take 4)
        (fun _ ha => List.drop_subset 12 s.data (List.take_subset 4 _ ha))
      have hf4 := hseg ((s.data.drop 16).take 4)
        (fun _ ha => List.drop_subset 16 s.data (List.take_subset 4 _ ha))
      have hf5 := hseg (s.data.drop 20) (List.drop_subset 20 s.data)
      have h1 : (s.data.drop 16).take 4 ++ s.data.drop 20 = s.data.drop 16 := by
        have hx := List.take_append_drop 4 (s.data.drop 16)
        rwa [List.drop_drop] at hx
      have h2 : (s.data.drop 12).take 4 ++ s.data.drop 16 = s.data.drop 12 := by
        have hx := List.take_append_drop 4 (s.data.drop 12)
        rwa [List.drop_drop] at hx
      have h3 : (s.data.drop 8).take 4 ++ s.data.drop 12 = s.data.drop 8 := by
        have hx := List.take_append_drop 4 (s.data.drop 8)
        rwa [List.drop_drop] at hx
      have h4 : s.data.take 8 ++ s.data.drop 8 = s.data :=
        List.take_append_drop 8 s.data
      simp only [List.filter_append, List.filter_cons]
      norm_num
      rw [hf1, hf2, hf3, hf4, hf5]
      calc s.data.take 8 ++ ((s.data.drop 8).take 4 ++
              ((s.data.drop 12).take 4 ++ ((s.data.drop 16).take 4 ++ s.data.drop 20)))
          = s.data.take 8 ++ ((s.data.drop 8).take 4 ++
              ((s.data.drop 12).take 4 ++ s.data.drop 16)) := by rw [h1]
        _ = s.data.take 8 ++ ((s.data.drop 8).take 4 ++ s.data.drop 12) := by rw [h2]
        _ = s.data.take 8 ++ s.data.drop 8 := by rw [h3]
        _ = s.data := h4
  · intro p s token key oracle fuel htok
    have hprint : printBlocksRecursive idEchoClient (fuel + 1) (formatPageID s) 0 [] 0 =
        ("", Except.error ("failed to get blocks: " ++ formatPageID s, 1)) := by
      simp [printBlocksRecursive, fetchChildBlocks, getChildrenAll, idEchoClient]
    simp [runMain, htok, hprint]

/-- C9: a numbered-list item always renders with the literal prefix
"1. "; in particular two sibling numbered items both render with it. -/
theorem numberedItem_fixed_one :
    (∀ (i : String) (hc : Bool) (rt : List RichText) (d : Nat),
      printBlock ⟨i, hc, BlockData.numberedListItem rt⟩ d =
        strRepeat "    " d ++ "1. " ++ getRichTextContent rt ++ "\n") ∧
    (∀ (client : Client) (fuel : Nat) (b₁ b₂ : Block) (rt₁ rt₂ : List RichText)
      (d : Nat) (m : BlockMap) (n : Nat),
      b₁.data = BlockData.numberedListItem rt₁ →
      b₂.data = BlockData.numberedListItem rt₂ →
      mapFind m b₁.id = none → mapFind m b₂.id = none →
      (printBlocksLoop client (fuel + 2) [b₁, b₂] d m n).1 =
        (strRepeat "    " d ++ "1. " ++ getRichTextContent rt₁ ++ "\n") ++
        (strRepeat "    " d ++ "1. " ++ getRichTextContent rt₂ ++ "\n")) := by
  constructor
  · intro i hc rt d
    rfl
  · intro client fuel b₁ b₂ rt₁ rt₂ d m n h₁ h₂ hm₁ hm₂
    obtain ⟨i₁, c₁, d₁⟩ := b₁
    obtain ⟨i₂, c₂, d₂⟩ := b₂
    simp only at h₁ h₂ hm₁ hm₂
    subst h₁ h₂
    simp [printBlocksLoop, hm₁, hm₂, printBlock, String.append_assoc]

theorem numberedItem_fixed_one_witness :
    (printBlocksLoop client3 2 [numBlk1, numBlk2] 0 [] 0).1 =
      (strRepeat "    " 0 ++ "1. " ++ getRichTextContent [⟨"first"⟩] ++ "\n") ++
      (strRepeat "    " 0 ++ "1. " ++ getRichTextContent [⟨"second"⟩] ++ "\n") :=
  numberedItem_fixed_one.2 client3 0 numBlk1 numBlk2 [⟨"first"⟩] [⟨"second"⟩] 0 [] 0
    rfl rfl rfl rfl

theorem formatPageID_normalization_witness :
    (¬ '-' ∈ "0123456789abcdef0123456789abcdef".toList) ∧
    (formatPageID "0123456789abcdef0123456789abcdef").toList.length = 36 :=
  ⟨by decide,
    (formatPageID_normalization.2.1 "0123456789abcdef0123456789abcdef"
      (by decide) (by decide)).2.1⟩

theorem printBlock_starts_with_indent_witness :
    (¬ printBlock pbHi 1 = "") ∧
    (printBlock pbHi 1).toList.take (4 * 1) = List.replicate (4 * 1) ' ' :=
  ⟨by decide, printBlock_starts_with_indent pbHi 1 (by decide)⟩

/-- C8 counterexample: the paragraph block "hi" rendered at depth 1 emits
the fragment "    hi\n\n", whose second line (the blank separator line) has
zero leading spaces, not 4·1. -/
theorem printBlock_line_indent_cex :
    ¬ (∀ l ∈ splitOnChar '\n' (printBlock pbHi 1).toList,
        (l.takeWhile (fun c => c = ' ')).length = 4 * 1) := by
  decide

/-- C1 counterexample: a tree whose root has a single divider child
flattens to "\n\n" — the kind without a text payload still contributed the
blank-line separator, not zero characters. -/
theorem collect_divider_contributes_cex :
    collectContent clientD 10 "r" [] 0 = ("\n\n", Except.ok ([], 1)) ∧
    ¬ ("\n\n" = "") :=
  ⟨rfl, by decide⟩

/-- C2 counterexample: with a response sequence that serves the tree during
the initial recursive fetch and fails during the re-fetch performed while
rendering, the run reports a fetch error after having already emitted
non-empty structural output. -/
theorem partial_output_on_refetch_failure_cex :
    runMain ⟨["prog", "r"], "tok", "key"⟩ cex2Client okOracle 10 =
      ⟨"B\n\n", RunOutcome.fatalFetch "failed to get blocks: boom", 3, false⟩ ∧
    ¬ ("B\n\n" = "") :=
  ⟨rfl, by decide⟩

/-- C3 counterexample: on the three-level tree the build uses 3 remote
calls and yields a two-entry map, yet rendering ends with 6 remote calls
and a three-entry map — list-children operations are re-performed and the
map is mutated after the fetch phase. -/
theorem rebuild_during_render_cex :
    fetchChildBlocks client4 10 "r" [] 0 =
      Except.ok ([blkB], [("b", [blkC2]), ("c", [blkDD])], 3) ∧
    (printBlocksRecursive client4 10 "r" 0 [] 0).2 =
      Except.ok ([("c", [blkDD]), ("b", [blkC2]), ("c", [blkDD])], 6) ∧
    ¬ (([("c", [blkDD]), ("b", [blkC2]), ("c", [blkDD])] : BlockMap) =
        [("b", [blkC2]), ("c", [blkDD])]) :=
  ⟨rfl, rfl, by decide⟩

/-- C4 counterexample: with OPENAI_API_KEY unset the run performs 6
document-API calls, completes, and reports the missing key as a non-fatal
summarization error — it does not terminate fatally at startup. -/
theorem openai_missing_nonfatal_cex :
    runMain ⟨["prog", "r"], "tok", ""⟩ client3 okOracle 10 =
      ⟨"B\n\n    C\n\n\n=== AI による要約 ===\n\n",
        RunOutcome.done (some "OPENAI_API_KEY is not set"), 6, false⟩ ∧
    ¬ (RunOutcome.done (some "OPENAI_API_KEY is not set") = RunOutcome.fatalToken) ∧
    ¬ ((6 : Nat) = 0) :=
  ⟨rfl, by decide, by decide⟩

/-- Expanding a list of blocks none of which has children changes nothing. -/
theorem fetchDescendants_leaves (client : Client) :
    ∀ (bs : List Block) (fuel : Nat) (m : BlockMap) (n : Nat),
      (∀ b ∈ bs, b.hasChildren = false) → bs.length ≤ fuel →
      fetchDescendants client fuel bs m n = Except.ok (m, n) := by
  intro bs
  induction bs with
  | nil => intro fuel m n _ _; cases fuel <;> rfl
  | cons b rest ih =>
    intro fuel m n hleaf hlen
    cases fuel with
    | zero => simp at hlen
    | succ fuel =>
      have hb : b.hasChildren = false := hleaf b (by simp)
      have hrest : ∀ x ∈ rest, x.hasChildren = false := fun x hx => hleaf x (by simp [hx])
      have hlen' : rest.length ≤ fuel := by simp at hlen; omega
      simp only [fetchDescendants, hb]
      simp only [if_false, Bool.false_eq_true]
      exact ih fuel m n hrest hlen'

/-- C6: with three pages of 100, 100 and 50 children served through two
cursors, fetch_children returns the 250 nodes as the pages concatenated in
response order and performs exactly 3 remote calls. -/
theorem pagination_three_pages (client : Client) (fuel : Nat)
    (blockID cur₁ cur₂ cur₃ : String) (m : BlockMap) (n : Nat)
    (p₁ p₂ p₃ : List Block)
    (h₁ : client n blockID "" = Except.ok ⟨p₁, true, cur₁⟩)
    (h₂ : client (n + 1) blockID cur₁ = Except.ok ⟨p₂, true, cur₂⟩)
    (h₃ : client (n + 2) blockID cur₂ = Except.ok ⟨p₃, false, cur₃⟩)
    (hl₁ : p₁.length = 100) (hl₂ : p₂.length = 100) (hl₃ : p₃.length = 50)
    (hleaf : ∀ b ∈ p₁ ++ p₂ ++ p₃, b.hasChildren = false)
    (hfuel : 250 ≤ fuel) :
    fetchChildBlocks client (fuel + 1) blockID m n =
      Except.ok (p₁ ++ p₂ ++ p₃, m, n + 3) ∧
    (p₁ ++ p₂ ++ p₃).length = 250 := by
  obtain ⟨f, rfl⟩ : ∃ k, fuel = k + 2 := ⟨fuel - 2, by omega⟩
  have hlen : (p₁ ++ p₂ ++ p₃).length = 250 := by
    simp [hl₁, hl₂, hl₃]
  have hga : getChildrenAll client (f + 2 + 1) blockID "" [] n =
      Except.ok (p₁ ++ p₂ ++ p₃, n + 3) := by
    simp only [getChildrenAll, h₁]
    simp only [getChildrenAll, h₂]
    simp only [getChildrenAll, h₃]
    simp [List.append_assoc]
  refine ⟨?_, hlen⟩
  simp only [fetchChildBlocks, hga]
  have hdesc := fetchDescendants_leaves client (p₁ ++ p₂ ++ p₃) (f + 2) m (n + 3)
    hleaf (by omega)
  rw [hdesc]

theorem pagination_three_pages_witness :
    fetchChildBlocks cw6Client 251 "root" [] 0 =
      Except.ok (List.replicate 100 leafBlk ++ List.replicate 100 leafBlk ++
        List.replicate 50 leafBlk, [], 0 + 3) ∧
    (List.replicate 100 leafBlk ++ List.replicate 100 leafBlk ++
      List.replicate 50 leafBlk).length = 250 :=
  pagination_three_pages cw6Client 250 "root" "c1" "c2" "" [] 0
    (List.replicate 100 leafBlk) (List.replicate 100 leafBlk) (List.replicate 50 leafBlk)
    rfl rfl rfl (by simp) (by simp) (by simp)
    (by
      intro b hb
      rcases List.mem_append.mp hb with h | h
      · rcases List.mem_append.mp h with h' | h'
        · have hb' := List.eq_of_mem_replicate h'
          subst hb'
          rfl
        · have hb' := List.eq_of_mem_replicate h'
          subst hb'
          rfl
      · have hb' := List.eq_of_mem_replicate h
        subst hb'
        rfl)
    (by omega)

/-- When the initial recursive fetch fails, rendering emits nothing. -/
theorem printBlocksRecursive_of_fetch_error (client : Client) (fuel : Nat)
    (blockID : String) (depth : Nat) (m : BlockMap) (n : Nat) (e : FetchError)
    (h : fetchChildBlocks client fuel blockID m n = Except.error e) :
    printBlocksRecursive client fuel blockID depth m n = ("", Except.error e) := by
  cases fuel with
  | zero =>
    have he : Except.error (ε := FetchError) (α := List Block × BlockMap × Nat)
        ("out of fuel", n) = Except.error e := h
    have he' : ("out of fuel", n) = e := by
      injection he
    rw [printBlocksRecursive, he']
  | succ fuel =>
    simp only [printBlocksRecursive, h]

/-- C2 (amended): a fetch failure during the initial recursive fetch of the
root aborts the run with a fetch error and no structural output at all;
(the counterexample shows failures during rendering-phase re-fetches can
instead occur after partial output). -/
theorem fetch_error_no_output :
    (∀ (client : Client) (fuel : Nat) (blockID : String) (depth : Nat)
      (m : BlockMap) (n : Nat) (e : FetchError),
      fetchChildBlocks client fuel blockID m n = Except.error e →
      printBlocksRecursive client fuel blockID depth m n = ("", Except.error e)) ∧
    (∀ (env : Env) (client : Client) (oracle : String → Except String String)
      (fuel : Nat) (e : String) (n : Nat),
      env.args.length = 2 → ¬ env.notionToken = "" →
      fetchChildBlocks client fuel (formatPageID (env.args.getD 1 "")) [] 0 =
        Except.error (e, n) →
      runMain env client oracle fuel =
        ⟨"", RunOutcome.fatalFetch e, n, false⟩) := by
  refine ⟨printBlocksRecursive_of_fetch_error, ?_⟩
  intro env client oracle fuel e n hargs htok hfetch
  have hprint := printBlocksRecursive_of_fetch_error client fuel
    (formatPageID (env.args.getD 1 "")) 0 [] 0 (e, n) hfetch
  have h2 : ¬ (env.args.length ≠ 2) := by simp [hargs]
  simp only [runMain]
  rw [if_neg h2, if_neg htok, hprint]

theorem fetch_error_no_output_witness :
    fetchChildBlocks idEchoClient 5 "x" [] 0 =
      Except.error ("failed to get blocks: x", 1) ∧
    printBlocksRecursive idEchoClient 5 "x" 0 [] 0 =
      ("", Except.error ("failed to get blocks: x", 1)) :=
  ⟨rfl, fetch_error_no_output.1 idEchoClient 5 "x" 0 [] 0
    ("failed to get blocks: x", 1) rfl⟩

/-- The pagination loop performs at least one remote call when it succeeds. -/
theorem getChildrenAll_calls_lt :
    ∀ (fuel : Nat) (client : Client) (blockID cursor : String) (acc : List Block)
      (n : Nat) (bs : List Block) (n' : Nat),
      getChildrenAll client fuel blockID cursor acc n = Except.ok (bs, n') → n < n' := by
  intro fuel
  induction fuel with
  | zero => intro client blockID cursor acc n bs n' h; exact absurd h (by simp [getChildrenAll])
  | succ fuel ih =>
    intro client blockID cursor acc n bs n' h
    rw [getChildrenAll] at h
    cases hc : client n blockID cursor with
    | error e => rw [hc] at h; exact absurd h (by simp)
    | ok resp =>
      rw [hc] at h
      dsimp only at h
      by_cases hm : resp.hasMore = true
      · rw [if_pos hm] at h
        have := ih client blockID resp.nextCursor (acc ++ resp.results) (n + 1) bs n' h
        omega
      · rw [if_neg hm] at h
        have hp : (acc ++ resp.results, n + 1) = (bs, n') := by
          injection h
        have : n + 1 = n' := congrArg Prod.snd hp
        omega

/-- The descendant-expansion loop never decreases the call counter. -/
theorem fetchDescendants_calls_le :
    ∀ (fuel : Nat) (client : Client) (bs : List Block) (m : BlockMap) (n : Nat)
      (m' : BlockMap) (n' : Nat),
      fetchDescendants client fuel bs m n = Except.ok (m', n') → n ≤ n' := by
  intro fuel
  induction fuel with
  | zero =>
    intro client bs m n m' n' h
    cases bs with
    | nil =>
      have hp : (m, n) = (m', n') := by
        rw [fetchDescendants] at h
        injection h
      have : n = n' := congrArg Prod.snd hp
      omega
    | cons b rest => exact absurd h (by rw [fetchDescendants]; simp)
  | succ fuel ih =>
    intro client bs m n m' n' h
    cases bs with
    | nil =>
      have hp : (m, n) = (m', n') := by
        rw [fetchDescendants] at h
        injection h
      have : n = n' := congrArg Prod.snd hp
      omega
    | cons b rest =>
      rw [fetchDescendants] at h
      by_cases hb : b.hasChildren = true
      · rw [if_pos hb] at h
        cases hga : getChildrenAll client (fuel + 1) b.id "" [] n with
        | error e => rw [hga] at h; exact absurd h (by simp)
        | ok pr =>
          obtain ⟨cb, n₁⟩ := pr
          rw [hga] at h
          dsimp only at h
          have h₁ := getChildrenAll_calls_lt (fuel + 1) client b.id "" [] n cb n₁ hga
          cases hd : fetchDescendants client fuel cb m n₁ with
          | error e => rw [hd] at h; exact absurd h (by simp)
          | ok pr₂ =>
            obtain ⟨m₁, n₂⟩ := pr₂
            rw [hd] at h
            dsimp only at h
            have h₂ := ih client cb m n₁ m₁ n₂ hd
            have h₃ := ih client rest (mapInsert m₁ b.id cb) n₂ m' n' h
            omega
      · rw [if_neg hb] at h
        exact ih client rest m n m' n' h

/-- A successful fetchChildBlocks performs at least one remote call. -/
theorem fetchChildBlocks_calls_lt (client : Client) (fuel : Nat) (blockID : String)
    (m : BlockMap) (n : Nat) (bs : List Block) (m' : BlockMap) (n' : Nat)
    (h : fetchChildBlocks client fuel blockID m n = Except.ok (bs, m', n')) :
    n < n' := by
  cases fuel with
  | zero => exact absurd h (by rw [fetchChildBlocks]; simp)
  | succ fuel =>
    rw [fetchChildBlocks] at h
    cases hga : getChildrenAll client (fuel + 1) blockID "" [] n with
    | error e => rw [hga] at h; exact absurd h (by simp)
    | ok pr =>
      obtain ⟨blocks, n₁⟩ := pr
      rw [hga] at h
      dsimp only at h
      have h₁ := getChildrenAll_calls_lt (fuel + 1) client blockID "" [] n blocks n₁ hga
      cases hd : fetchDescendants client fuel blocks m n₁ with
      | error e => rw [hd] at h; exact absurd h (by simp)
      | ok pr₂ =>
        obtain ⟨m₁, n₂⟩ := pr₂
        rw [hd] at h
        dsimp only at h
        have h₂ := fetchDescendants_calls_le fuel client blocks m n₁ m₁ n₂ hd
        have hp : (blocks, m₁, n₂) = (bs, m', n') := by injection h
        have : n₂ = n' := congrArg (fun q => q.2.2) hp
        omega

/-- The rendering loop never decreases the call counter. -/
theorem printBlocksLoop_calls_le :
    ∀ (fuel : Nat) (client : Client) (bs : List Block) (depth : Nat) (m : BlockMap)
      (n : Nat) (out : String) (m' : BlockMap) (n' : Nat),
      printBlocksLoop client fuel bs depth m n = (out, Except.ok (m', n')) → n ≤ n' := by
  intro fuel
  induction fuel with
  | zero =>
    intro client bs depth m n out m' n' h
    cases bs with
    | nil =>
      have hb := congrArg Prod.snd h
      dsimp only at hb
      have hp : (m, n) = (m', n') := by injection hb
      have : n = n' := congrArg Prod.snd hp
      omega
    | cons b rest =>
      have hb := congrArg Prod.snd h
      exact absurd hb (by rw [printBlocksLoop]; simp)
  | succ fuel ih =>
    intro client bs depth m n out m' n' h
    cases bs with
    | nil =>
      have hb := congrArg Prod.snd h
      dsimp only at hb
      have hp : (m, n) = (m', n') := by injection hb
      have : n = n' := congrArg Prod.snd hp
      omega
    | cons b rest =>
      rw [printBlocksLoop] at h
      cases hf : mapFind m b.id with
      | none =>
        rw [hf] at h
        dsimp only at h
        cases hl : printBlocksLoop client fuel rest depth m n with
        | mk o₂ r =>
          rw [hl] at h
          dsimp only at h
          have hr : r = Except.ok (m', n') := congrArg Prod.snd h
          rw [hr] at hl
          exact ih client rest depth m n o₂ m' n' hl
      | some cs =>
        rw [hf] at h
        dsimp only at h
        cases hfc : fetchChildBlocks client (fuel + 1) b.id m n with
        | error e =>
          rw [hfc] at h
          dsimp only at h
          have hr := congrArg Prod.snd h
          exact absurd hr (by simp)
        | ok pr =>
          obtain ⟨blocks, m₁, n₁⟩ := pr
          rw [hfc] at h
          dsimp only at h
          have h₁ := fetchChildBlocks_calls_lt client (fuel + 1) b.id m n blocks m₁ n₁ hfc
          cases hl1 : printBlocksLoop client fuel blocks (depth + 1) m₁ n₁ with
          | mk o r =>
            rw [hl1] at h
            cases r with
            | error e =>
              dsimp only at h
              have hr := congrArg Prod.snd h
              exact absurd hr (by simp)
            | ok pr₂ =>
              obtain ⟨m₂, n₂⟩ := pr₂
              dsimp only at h
              have h₂ := ih client blocks (depth + 1) m₁ n₁ o m₂ n₂ hl1
              cases hl2 : printBlocksLoop client fuel rest depth m₂ n₂ with
              | mk o₂ r₂ =>
                rw [hl2] at h
                dsimp only at h
                have hr : r₂ = Except.ok (m', n') := congrArg Prod.snd h
                rw [hr] at hl2
                have h₃ := ih client rest depth m₂ n₂ o₂ m' n' hl2
                omega

/-- A successful rendering of a node performs at least one fresh remote
call (printBlocksRecursive starts by re-invoking fetchChildBlocks). -/
theorem printBlocksRecursive_calls_lt (client : Client) (fuel : Nat)
    (blockID : String) (depth : Nat) (m : BlockMap) (n : Nat) (out : String)
    (m' : BlockMap) (n' : Nat)
    (h : printBlocksRecursive client fuel blockID depth m n = (out, Except.ok (m', n'))) :
    n < n' := by
  cases fuel with
  | zero =>
    have hb := congrArg Prod.snd h
    exact absurd hb (by rw [printBlocksRecursive]; simp)
  | succ fuel =>
    rw [printBlocksRecursive] at h
    cases hfc : fetchChildBlocks client (fuel + 1) blockID m n with
    | error e =>
      rw [hfc] at h
      dsimp only at h
      have hb := congrArg Prod.snd h
      exact absurd hb (by simp)
    | ok pr =>
      obtain ⟨blocks, m₁, n₁⟩ := pr
      rw [hfc] at h
      dsimp only at h
      have h₁ := fetchChildBlocks_calls_lt client (fuel + 1) blockID m n blocks m₁ n₁ hfc
      have h₂ := printBlocksLoop_calls_le fuel client blocks depth m₁ n₁ out m' n' h
      omega

/-- The extraction loop never decreases the call counter. -/
theorem collectLoop_calls_le :
    ∀ (fuel : Nat) (client : Client) (bs : List Block) (m : BlockMap)
      (n : Nat) (out : String) (m' : BlockMap) (n' : Nat),
      collectLoop client fuel bs m n = (out, Except.ok (m', n')) → n ≤ n' := by
  intro fuel
  induction fuel with
  | zero =>
    intro client bs m n out m' n' h
    cases bs with
    | nil =>
      have hb := congrArg Prod.snd h
      dsimp only at hb
      have hp : (m, n) = (m', n') := by injection hb
      have : n = n' := congrArg Prod.snd hp
      omega
    | cons b rest =>
      have hb := congrArg Prod.snd h
      exact absurd hb (by rw [collectLoop]; simp)
  | succ fuel ih =>
    intro client bs m n out m' n' h
    cases bs with
    | nil =>
      have hb := congrArg Prod.snd h
      dsimp only at hb
      have hp : (m, n) = (m', n') := by injection hb
      have : n = n' := congrArg Prod.snd hp
      omega
    | cons b rest =>
      rw [collectLoop] at h
      cases hf : mapFind m b.id with
      | none =>
        rw [hf] at h
        dsimp only at h
        cases hl : collectLoop client fuel rest m n with
        | mk o₂ r =>
          rw [hl] at h
          dsimp only at h
          have hr : r = Except.ok (m', n') := congrArg Prod.snd h
          rw [hr] at hl
          exact ih client rest m n o₂ m' n' hl
      | some cs =>
        rw [hf] at h
        dsimp only at h
        cases hfc : fetchChildBlocks client (fuel + 1) b.id m n with
        | error e =>
          rw [hfc] at h
          dsimp only at h
          have hr := congrArg Prod.snd h
          exact absurd hr (by simp)
        | ok pr =>
          obtain ⟨blocks, m₁, n₁⟩ := pr
          rw [hfc] at h
          dsimp only at h
          have h₁ := fetchChildBlocks_calls_lt client (fuel + 1) b.id m n blocks m₁ n₁ hfc
          cases hl1 : collectLoop client fuel blocks m₁ n₁ with
          | mk o r =>
            rw [hl1] at h
            cases r with
            | error e =>
              dsimp only at h
              have hr := congrArg Prod.snd h
              exact absurd hr (by simp)
            | ok pr₂ =>
              obtain ⟨m₂, n₂⟩ := pr₂
              dsimp only at h
              have h₂ := ih client blocks m₁ n₁ o m₂ n₂ hl1
              cases hl2 : collectLoop client fuel rest m₂ n₂ with
              | mk o₂ r₂ =>
                rw [hl2] at h
                dsimp only at h
                have hr : r₂ = Except.ok (m', n') := congrArg Prod.snd h
                rw [hr] at hl2
                have h₃ := ih client rest m₂ n₂ o₂ m' n' hl2
                omega

/-- A successful extraction of a node performs at least one fresh remote
call (collectContent starts by re-invoking fetchChildBlocks). -/
theorem collectContent_calls_lt (client : Client) (fuel : Nat)
    (blockID : String) (m : BlockMap) (n : Nat) (out : String)
    (m' : BlockMap) (n' : Nat)
    (h : collectContent client fuel blockID m n = (out, Except.ok (m', n'))) :
    n < n' := by
  cases fuel with
  | zero =>
    have hb := congrArg Prod.snd h
    exact absurd hb (by rw [collectContent]; simp)
  | succ fuel =>
    rw [collectContent] at h
    cases hfc : fetchChildBlocks client (fuel + 1) blockID m n with
    | error e =>
      rw [hfc] at h
      dsimp only at h
      have hb := congrArg Prod.snd h
      exact absurd hb (by simp)
    | ok pr =>
      obtain ⟨blocks, m₁, n₁⟩ := pr
      rw [hfc] at h
      dsimp only at h
      have h₁ := fetchChildBlocks_calls_lt client (fuel + 1) blockID m n blocks m₁ n₁ hfc
      have h₂ := collectLoop_calls_le fuel client blocks m₁ n₁ out m' n' h
      omega

/-- C3 (amended): the rendering and extraction phases rebuild the tree —
every successful traversal of a node by either phase performs at least one
fresh remote list-children call, strictly increasing the call counter, even
when the node's children are already stored in the map. -/
theorem render_and_extract_refetch :
    (∀ (client : Client) (fuel : Nat) (blockID : String) (depth : Nat)
      (m : BlockMap) (n : Nat) (out : String) (m' : BlockMap) (n' : Nat),
      printBlocksRecursive client fuel blockID depth m n = (out, Except.ok (m', n')) →
      n < n') ∧
    (∀ (client : Client) (fuel : Nat) (blockID : String)
      (m : BlockMap) (n : Nat) (out : String) (m' : BlockMap) (n' : Nat),
      collectContent client fuel blockID m n = (out, Except.ok (m', n')) → n < n') :=
  ⟨printBlocksRecursive_calls_lt, collectContent_calls_lt⟩

theorem render_and_extract_refetch_witness :
    printBlocksRecursive client3 10 "r" 0 [("b", [blkC])] 2 =
      ("B\n\n    C\n\n", Except.ok ([("b", [blkC]), ("b", [blkC])], 5)) ∧
    2 < 5 :=
  ⟨rfl, render_and_extract_refetch.1 client3 10 "r" 0 [("b", [blkC])] 2
    "B\n\n    C\n\n" [("b", [blkC]), ("b", [blkC])] 5 rfl⟩

/-- C4 (amended): a missing NOTION_API_TOKEN is fatal at startup, before
any remote call and before the summarizer is reached; a missing
OPENAI_API_KEY is only detected by the summarization step after the whole
fetch/render/collect pipeline has run, and is reported without aborting the
run (the summarizer oracle is never called). -/
theorem credentials_check :
    (∀ (env : Env) (client : Client) (oracle : String → Except String String)
      (fuel : Nat),
      env.args.length = 2 → env.notionToken = "" →
      runMain env client oracle fuel = ⟨"", RunOutcome.fatalToken, 0, false⟩) ∧
    (∀ (env : Env) (client : Client) (oracle : String → Except String String)
      (fuel : Nat) (out content : String) (m m' : BlockMap) (n n' : Nat),
      env.args.length = 2 → ¬ env.notionToken = "" → env.openaiKey = "" →
      printBlocksRecursive client fuel (formatPageID (env.args.getD 1 "")) 0 [] 0 =
        (out, Except.ok (m, n)) →
      collectContent client fuel (formatPageID (env.args.getD 1 "")) m n =
        (content, Except.ok (m', n')) →
      runMain env client oracle fuel =
        ⟨out ++ "\n=== AI による要約 ===\n\n",
          RunOutcome.done (some "OPENAI_API_KEY is not set"), n', false⟩) := by
  constructor
  · intro env client oracle fuel hargs htok
    have h2 : ¬ (env.args.length ≠ 2) := by simp [hargs]
    simp only [runMain]
    rw [if_neg h2, if_pos htok]
  · intro env client oracle fuel out content m m' n n' hargs htok hkey hprint hcollect
    have h2 : ¬ (env.args.length ≠ 2) := by simp [hargs]
    have hsum : summarizeContent env.openaiKey oracle content =
        (Except.error "OPENAI_API_KEY is not set", false) := by
      simp [summarizeContent, hkey]
    simp only [runMain]
    rw [if_neg h2, if_neg htok, hprint]
    dsimp only
    rw [hcollect]
    dsimp only
    rw [hsum]

theorem credentials_check_witness :
    runMain ⟨["prog", "r"], "tok", ""⟩ client3 okOracle 10 =
      ⟨"B\n\n    C\n\n" ++ "\n=== AI による要約 ===\n\n",
        RunOutcome.done (some "OPENAI_API_KEY is not set"), 6, false⟩ :=
  credentials_check.2 ⟨["prog", "r"], "tok", ""⟩ client3 okOracle 10
    "B\n\n    C\n\n" "B\n\nC\n\n" [("b", [blkC])]
    [("b", [blkC]), ("b", [blkC])] 3 6
    rfl (by decide) rfl rfl rfl

/-- Lookup after a Go-map assignment. -/
theorem mapFind_insert (m : BlockMap) (k k' : String) (v : List Block) :
    mapFind (mapInsert m k v) k' = if k = k' then some v else mapFind m k' := by
  by_cases h : k = k'
  · simp [mapFind, mapInsert, List.find?, h]
  · simp [mapFind, mapInsert, List.find?, h]

/-- The descendant expansion adds to the map exactly the ids that the ghost
observer records: the fetched blocks whose has-children flag was true. -/
theorem fetchDescendants_keys :
    ∀ (fuel : Nat) (client : Client) (bs : List Block) (m : BlockMap) (n : Nat)
      (m' : BlockMap) (n' : Nat),
      fetchDescendants client fuel bs m n = Except.ok (m', n') →
      ∃ ids : List String,
        fetchedIdsDescendants client fuel bs n = Except.ok (ids, n') ∧
        ∀ k, (mapFind m' k).isSome ↔ ((mapFind m k).isSome ∨ k ∈ ids) := by
  intro fuel
  induction fuel with
  | zero =>
    intro client bs m n m' n' h
    cases bs with
    | nil =>
      have hp : (m, n) = (m', n') := by rw [fetchDescendants] at h; injection h
      have hm : m = m' := congrArg Prod.fst hp
      have hn : n = n' := congrArg Prod.snd hp
      subst hm
      subst hn
      exact ⟨[], by rw [fetchedIdsDescendants], by simp⟩
    | cons b rest => exact absurd h (by rw [fetchDescendants]; simp)
  | succ fuel ih =>
    intro client bs m n m' n' h
    cases bs with
    | nil =>
      have hp : (m, n) = (m', n') := by rw [fetchDescendants] at h; injection h
      have hm : m = m' := congrArg Prod.fst hp
      have hn : n = n' := congrArg Prod.snd hp
      subst hm
      subst hn
      exact ⟨[], by rw [fetchedIdsDescendants], by simp⟩
    | cons b rest =>
      rw [fetchDescendants] at h
      by_cases hb : b.hasChildren = true
      · rw [if_pos hb] at h
        cases hga : getChildrenAll client (fuel + 1) b.id "" [] n with
        | error e => rw [hga] at h; exact absurd h (by simp)
        | ok pr =>
          obtain ⟨cb, n₁⟩ := pr
          rw [hga] at h
          dsimp only at h
          cases hd : fetchDescendants client fuel cb m n₁ with
          | error e => rw [hd] at h; exact absurd h (by simp)
          | ok pr₂ =>
            obtain ⟨m₁, n₂⟩ := pr₂
            rw [hd] at h
            dsimp only at h
            obtain ⟨ids₁, hg₁, hiff₁⟩ := ih client cb m n₁ m₁ n₂ hd
            obtain ⟨ids₂, hg₂, hiff₂⟩ := ih client rest (mapInsert m₁ b.id cb) n₂ m' n' h
            refine ⟨ids₁ ++ b.id :: ids₂, ?_, ?_⟩
            · rw [fetchedIdsDescendants, if_pos hb, hga]
              dsimp only
              rw [hg₁]
              dsimp only
              rw [hg₂]
            · intro k
              rw [hiff₂ k, mapFind_insert]
              by_cases hk : b.id = k
              · simp [hk, hiff₁ k, List.mem_append, List.mem_cons]
              · simp only [if_neg hk]
                rw [hiff₁ k]
                simp only [List.mem_append, List.mem_cons]
                constructor
                · intro hcase
                  rcases hcase with (hcase | hcase) | hcase
                  · exact Or.inl hcase
                  · exact Or.inr (Or.inl hcase)
                  · exact Or.inr (Or.inr (Or.inr hcase))
                · intro hcase
                  rcases hcase with hcase | hcase | hcase | hcase
                  · exact Or.inl (Or.inl hcase)
                  · exact Or.inl (Or.inr hcase)
                  · exact absurd hcase.symm hk
                  · exact Or.inr hcase
      · rw [if_neg hb] at h
        obtain ⟨ids, hg, hiff⟩ := ih client rest m n m' n' h
        refine ⟨ids, ?_, hiff⟩
        rw [fetchedIdsDescendants, if_neg hb]
        exact hg

/-- After a complete fetch the keys of the map are exactly the prior keys
plus the ids that the ghost observer records (the fetched nodes whose
has-children flag was true at fetch time). -/
theorem fetchChildBlocks_keys (client : Client) (fuel : Nat) (blockID : String)
    (m : BlockMap) (n : Nat) (bs : List Block) (m' : BlockMap) (n' : Nat)
    (h : fetchChildBlocks client fuel blockID m n = Except.ok (bs, m', n')) :
    ∃ ids : List String,
      fetchedChildIds client fuel blockID n = Except.ok (ids, n') ∧
      ∀ k, (mapFind m' k).isSome ↔ ((mapFind m k).isSome ∨ k ∈ ids) := by
  cases fuel with
  | zero => exact absurd h (by rw [fetchChildBlocks]; simp)
  | succ fuel =>
    rw [fetchChildBlocks] at h
    cases hga : getChildrenAll client (fuel + 1) blockID "" [] n with
    | error e => rw [hga] at h; exact absurd h (by simp)
    | ok pr =>
      obtain ⟨blocks, n₁⟩ := pr
      rw [hga] at h
      dsimp only at h
      cases hd : fetchDescendants client fuel blocks m n₁ with
      | error e => rw [hd] at h; exact absurd h (by simp)
      | ok pr₂ =>
        obtain ⟨m₁, n₂⟩ := pr₂
        rw [hd] at h
        dsimp only at h
        have hp : (blocks, m₁, n₂) = (bs, m', n') := by injection h
        have hm : m₁ = m' := congrArg (fun q => q.2.1) hp
        have hn : n₂ = n' := congrArg (fun q => q.2.2) hp
        obtain ⟨ids, hg, hiff⟩ := fetchDescendants_keys fuel client blocks m n₁ m₁ n₂ hd
        refine ⟨ids, ?_, ?_⟩
        · rw [fetchedChildIds, hga]
          dsimp only
          rw [hg, hn]
        · intro k
          rw [← hm]
          exact hiff k

/-- A block whose id is not a key of the map is not descended into. -/
theorem printBlocksLoop_skips_absent (client : Client) (fuel : Nat) (b : Block)
    (bs : List Block) (depth : Nat) (m : BlockMap) (n : Nat)
    (h : mapFind m b.id = none) :
    printBlocksLoop client (fuel + 1) (b :: bs) depth m n =
      (printBlock b depth ++ (printBlocksLoop client fuel bs depth m n).1,
        (printBlocksLoop client fuel bs depth m n).2) := by
  rw [printBlocksLoop, h]

/-- C5: after a complete fetch starting from any map, the keys of the tree
mapping are exactly the prior keys plus the ids of fetched nodes whose
has-children flag was true (as recorded by the ghost observer that retraces
the fetch); and during rendering a block whose id is absent from the map is
treated as a leaf: its fragment is printed and the loop moves to the next
sibling without descending. -/
theorem tree_keys_match_has_children :
    (∀ (client : Client) (fuel : Nat) (blockID : String) (m : BlockMap) (n : Nat)
      (bs : List Block) (m' : BlockMap) (n' : Nat),
      fetchChildBlocks client fuel blockID m n = Except.ok (bs, m', n') →
      ∃ ids : List String,
        fetchedChildIds client fuel blockID n = Except.ok (ids, n') ∧
        ∀ k, (mapFind m' k).isSome ↔ ((mapFind m k).isSome ∨ k ∈ ids)) ∧
    (∀ (client : Client) (fuel : Nat) (b : Block) (bs : List Block) (depth : Nat)
      (m : BlockMap) (n : Nat),
      mapFind m b.id = none →
      printBlocksLoop client (fuel + 1) (b :: bs) depth m n =
        (printBlock b depth ++ (printBlocksLoop client fuel bs depth m n).1,
          (printBlocksLoop client fuel bs depth m n).2)) :=
  ⟨fetchChildBlocks_keys, printBlocksLoop_skips_absent⟩

theorem tree_keys_match_has_children_witness :
    fetchChildBlocks client3 10 "r" [] 0 =
      Except.ok ([blkB], [("b", [blkC])], 2) ∧
    (∃ ids : List String,
      fetchedChildIds client3 10 "r" 0 = Except.ok (ids, 2) ∧
      ∀ k, (mapFind [("b", [blkC])] k).isSome ↔
        ((mapFind ([] : BlockMap) k).isSome ∨ k ∈ ids)) :=
  ⟨rfl, tree_keys_match_has_children.1 client3 10 "r" [] 0 [blkB] [("b", [blkC])] 2 rfl⟩


/-- Contributions distribute over concatenation of visited lists. -/
theorem catContributions_append (xs ys : List Block) :
    catContributions (xs ++ ys) = catContributions xs ++ catContributions ys := by
  induction xs with
  | nil => simp [catContributions]
  | cons b rest ih => simp [catContributions, ih, String.append_assoc]

/-- The extraction loop writes exactly the contributions of the blocks the
ghost observer visits, in visit order, and agrees with it on the outcome. -/
theorem collectLoop_eq_visited :
    ∀ (fuel : Nat) (client : Client) (bs : List Block) (m : BlockMap) (n : Nat),
      collectLoop client fuel bs m n =
        (catContributions (collectVisitedLoop client fuel bs m n).1,
          (collectVisitedLoop client fuel bs m n).2) := by
  intro fuel
  induction fuel with
  | zero =>
    intro client bs m n
    cases bs with
    | nil => rfl
    | cons b rest => rfl
  | succ fuel ih =>
    intro client bs m n
    cases bs with
    | nil => rfl
    | cons b rest =>
      rw [collectLoop, collectVisitedLoop]
      cases hf : mapFind m b.id with
      | none =>
        dsimp only
        cases hg : collectVisitedLoop client fuel rest m n with
        | mk v₂ r₂ =>
          have hi := ih client rest m n
          rw [hg] at hi
          dsimp only at hi
          rw [hi]
          dsimp only
          simp [catContributions]
      | some cs =>
        dsimp only
        cases hfc : fetchChildBlocks client (fuel + 1) b.id m n with
        | error e =>
          dsimp only
          simp [catContributions]
        | ok pr =>
          obtain ⟨blocks, m₁, n₁⟩ := pr
          dsimp only
          cases hg1 : collectVisitedLoop client fuel blocks m₁ n₁ with
          | mk v rv =>
            have hi1 := ih client blocks m₁ n₁
            rw [hg1] at hi1
            dsimp only at hi1
            rw [hi1]
            cases rv with
            | error e =>
              dsimp only
              simp [catContributions]
            | ok pr₂ =>
              obtain ⟨m₂, n₂⟩ := pr₂
              dsimp only
              cases hg2 : collectVisitedLoop client fuel rest m₂ n₂ with
              | mk v₂ r₂ =>
                have hi2 := ih client rest m₂ n₂
                rw [hg2] at hi2
                dsimp only at hi2
                rw [hi2]
                dsimp only
                simp [catContributions, catContributions_append, String.append_assoc]

/-- C1 (amended): for every fetched tree — any client, any fuel, any
starting map and call counter — the flattened text is exactly the
concatenation, over the nodes the extraction walk visits in depth-first
document order, of each node's kind text followed by the unconditional
blank-line separator.  The second conjunct pins the visit order: a visited
node precedes its (re-fetched) children, which precede its later siblings,
and a node whose id is absent from the map is visited without descending.
The third conjunct lists the per-kind text contributions: the ten
text-bearing kinds contribute their concatenated plain text, every other
kind contributes nothing beyond the separator. -/
theorem collect_contribution :
    (∀ (client : Client) (fuel : Nat) (blockID : String) (m : BlockMap) (n : Nat),
      collectContent client fuel blockID m n =
        (catContributions (collectVisited client fuel blockID m n).1,
          (collectVisited client fuel blockID m n).2)) ∧
    (∀ (client : Client) (fuel : Nat) (b : Block) (bs : List Block) (m : BlockMap)
      (n : Nat),
      (mapFind m b.id = none →
        (collectVisitedLoop client (fuel + 1) (b :: bs) m n).1 =
          b :: (collectVisitedLoop client fuel bs m n).1) ∧
      (∀ (cs blocks v : List Block) (m₁ m₂ : BlockMap) (n₁ n₂ : Nat),
        mapFind m b.id = some cs →
        fetchChildBlocks client (fuel + 1) b.id m n = Except.ok (blocks, m₁, n₁) →
        collectVisitedLoop client fuel blocks m₁ n₁ = (v, Except.ok (m₂, n₂)) →
        (collectVisitedLoop client (fuel + 1) (b :: bs) m n).1 =
          b :: v ++ (collectVisitedLoop client fuel bs m₂ n₂).1)) ∧
    (∀ (i : String) (hc checked : Bool) (rt : List RichText) (ic : Option Icon)
      (ty u₁ u₂ lang : String) (cells : List (List RichText)),
      collectBlockText ⟨i, hc, BlockData.paragraph rt⟩ = getRichTextContent rt ∧
      collectBlockText ⟨i, hc, BlockData.heading1 rt⟩ = getRichTextContent rt ∧
      collectBlockText ⟨i, hc, BlockData.heading2 rt⟩ = getRichTextContent rt ∧
      collectBlockText ⟨i, hc, BlockData.heading3 rt⟩ = getRichTextContent rt ∧
      collectBlockText ⟨i, hc, BlockData.bulletedListItem rt⟩ = getRichTextContent rt ∧
      collectBlockText ⟨i, hc, BlockData.numberedListItem rt⟩ = getRichTextContent rt ∧
      collectBlockText ⟨i, hc, BlockData.toDo rt checked⟩ = getRichTextContent rt ∧
      collectBlockText ⟨i, hc, BlockData.quote rt⟩ = getRichTextContent rt ∧
      collectBlockText ⟨i, hc, BlockData.callout rt ic⟩ = getRichTextContent rt ∧
      collectBlockText ⟨i, hc, BlockData.toggle rt⟩ = getRichTextContent rt ∧
      collectBlockText ⟨i, hc, BlockData.image ty u₁ u₂⟩ = "" ∧
      collectBlockText ⟨i, hc, BlockData.code rt lang⟩ = "" ∧
      collectBlockText ⟨i, hc, BlockData.divider⟩ = "" ∧
      collectBlockText ⟨i, hc, BlockData.table⟩ = "" ∧
      collectBlockText ⟨i, hc, BlockData.tableRow cells⟩ = "" ∧
      collectBlockText ⟨i, hc, BlockData.columnList⟩ = "" ∧
      collectBlockText ⟨i, hc, BlockData.column⟩ = "" ∧
      collectBlockText ⟨i, hc, BlockData.unknown⟩ = "") := by
  refine ⟨?_, ?_, ?_⟩
  · intro client fuel blockID m n
    cases fuel with
    | zero => rfl
    | succ fuel =>
      rw [collectContent, collectVisited]
      cases hfc : fetchChildBlocks client (fuel + 1) blockID m n with
      | error e => rfl
      | ok pr =>
        obtain ⟨blocks, m₁, n₁⟩ := pr
        dsimp only
        exact collectLoop_eq_visited fuel client blocks m₁ n₁
  · intro client fuel b bs m n
    constructor
    · intro hfind
      rw [collectVisitedLoop, hfind]
    · intro cs blocks v m₁ m₂ n₁ n₂ hfind hfetch hsub
      rw [collectVisitedLoop, hfind]
      dsimp only
      rw [hfetch]
      dsimp only
      rw [hsub]
  · intro i hc checked rt ic ty u₁ u₂ lang cells
    refine ⟨rfl, rfl, rfl, rfl, rfl, rfl, rfl, rfl, rfl, rfl, rfl, rfl, rfl, rfl,
      rfl, rfl, rfl, rfl⟩

theorem collect_contribution_witness :
    collectContent client4 10 "r" [] 0 =
      (catContributions (collectVisited client4 10 "r" [] 0).1,
        (collectVisited client4 10 "r" [] 0).2) ∧
    (collectVisited client4 10 "r" [] 0).1 = [blkB, blkC2, blkDD] ∧
    collectContent client4 10 "r" [] 0 =
      ("B\n\nC\n\nD\n\n",
        Except.ok ([("c", [blkDD]), ("b", [blkC2]), ("c", [blkDD])], 6)) ∧
    (collectVisitedLoop client4 (8 + 1) [blkB] [("b", [blkC2]), ("c", [blkDD])] 3).1 =
      blkB :: [blkC2, blkDD] ++
        (collectVisitedLoop client4 8 []
          [("c", [blkDD]), ("b", [blkC2]), ("c", [blkDD])] 6).1 :=
  ⟨collect_contribution.1 client4 10 "r" [] 0, rfl, rfl,
    (collect_contribution.2.1 client4 8 blkB [] [("b", [blkC2]), ("c", [blkDD])] 3).2
      [blkC2] [blkC2] [blkC2, blkDD]
      [("c", [blkDD]), ("b", [blkC2]), ("c", [blkDD])]
      [("c", [blkDD]), ("b", [blkC2]), ("c", [blkDD])] 5 6
      rfl rfl rfl⟩
